import Mathlib

/-!
Verification of the `enum_str!` macro (src/src/lib.rs).

The macro, given a type name and an ordered list of `(key_i, value_i)` pairs,
generates a fieldless enum with one variant per `key_i` together with
  * `as_str : &T -> &str`, an exhaustive match returning `value_i` for `key_i`,
  * a `Display` impl whose `fmt` writes `value_i` to the formatter,
  * `FromStr` with `Err = ()` whose `from_str` matches the input string
    against each `value_i` pattern in declaration order, `_ => Err(())`.

Shallow embedding: the generated enum for a specification list of `n` pairs
is modelled by `Fin n`, where variant `key_i` is the index `i` and the
declaration-ordered list of string literal values is `spec : List String`
(the keys themselves are identifiers erased at generation time; only their
positions matter for the runtime functions). Each generated function is
translated from the body the macro template emits.
-/

namespace EnumStr

/-- The generated `as_str`: the exhaustive `match self` returning the declared
literal `$value` for variant `$key`. With variants as positions, the arm for
variant `i` of `v :: rest` is: position 0 returns the head literal, position
`i+1` is the arm generated from `rest`. Total by construction (the match is
exhaustive over the closed variant set), mirroring that the Rust match has
one arm per variant and cannot panic. -/
def as_str : (spec : List String) → Fin spec.length → String
  | [], k => Fin.elim0 k
  | v :: rest, k =>
    match k with
    | ⟨0, _⟩ => v
    | ⟨i + 1, h⟩ => as_str rest ⟨i, Nat.lt_of_succ_lt_succ h⟩

/-- The generated `Display::fmt`: an exhaustive `match self` whose arm for
variant `$key` executes `write!(f, "{}", $value)`. The formatter is modelled
as the string accumulated so far; writing appends the literal to it. -/
def fmt : (spec : List String) → Fin spec.length → String → String
  | [], k, _ => Fin.elim0 k
  | v :: rest, k, f =>
    match k with
    | ⟨0, _⟩ => f ++ v
    | ⟨i + 1, h⟩ => fmt rest ⟨i, Nat.lt_of_succ_lt_succ h⟩ f

/-- `to_string` as provided by the blanket `ToString` impl for `Display`
types: run `fmt` on an empty output sink. -/
def to_string (spec : List String) (k : Fin spec.length) : String :=
  fmt spec k ""

/-- The generated `from_str`: `match val` with one arm `$value => Ok($name::$key)`
per pair, in declaration order, then `_ => Err(())`. A string literal pattern
in Rust tests full-string equality of the scrutinee with the literal, and
match arms are tried top to bottom, so the first arm whose literal equals
`val` wins. `Err` is `()`, modelled as `Unit`. -/
def from_str : (spec : List String) → String → Except Unit (Fin spec.length)
  | [], _ => .error ()
  | v :: rest, val =>
    if val = v then .ok ⟨0, Nat.succ_pos _⟩
    else
      match from_str rest val with
      | .ok i => .ok i.succ
      | .error e => .error e

/-- The `#[derive(PartialEq)]` on the generated fieldless enum: the derived
`eq` compares the discriminants of the two values, i.e. their variant
positions. -/
def derivedEq (spec : List String) (a b : Fin spec.length) : Bool :=
  a.val == b.val

/-- The match arm of `as_str` for variant `k` returns exactly the `k`-th
declared literal of the specification list. -/
theorem as_str_get : ∀ (spec : List String) (k : Fin spec.length),
    as_str spec k = spec.get k
  | [], k => Fin.elim0 k
  | _ :: _, ⟨0, _⟩ => rfl
  | _ :: rest, ⟨i + 1, h⟩ => as_str_get rest ⟨i, Nat.lt_of_succ_lt_succ h⟩

/-- `fmt` appends the `k`-th declared literal to the formatter's output. -/
theorem fmt_eq_append : ∀ (spec : List String) (k : Fin spec.length) (f : String),
    fmt spec k f = f ++ spec.get k
  | [], k, _ => Fin.elim0 k
  | _ :: _, ⟨0, _⟩, _ => rfl
  | _ :: rest, ⟨i + 1, h⟩, f => fmt_eq_append rest ⟨i, Nat.lt_of_succ_lt_succ h⟩ f

/-- Stringification via the `Display` impl yields the `k`-th declared literal. -/
theorem to_string_get (spec : List String) (k : Fin spec.length) :
    to_string spec k = spec.get k := by
  rw [to_string, fmt_eq_append, String.empty_append]

/-- If some `from_str` arm matches, the winning variant's declared literal is
the input string (the arm's pattern is full-string equality with its literal). -/
theorem from_str_ok_get : ∀ (spec : List String) (s : String) (k : Fin spec.length),
    from_str spec s = .ok k → spec.get k = s
  | [], _, k, _ => Fin.elim0 k
  | v :: rest, s, k, h => by
    by_cases hv : s = v
    · rw [from_str, if_pos hv] at h
      injection h with h
      subst h
      exact hv.symm
    · rw [from_str, if_neg hv] at h
      cases hfr : from_str rest s with
      | error e => rw [hfr] at h; cases h
      | ok i =>
        rw [hfr] at h
        injection h with h
        subst h
        exact from_str_ok_get rest s i hfr

/-- If no declared literal equals the input, every arm's equality test fails
and the wildcard arm returns `Err(())`. -/
theorem from_str_error_of_not_mem : ∀ (spec : List String) (s : String),
    s ∉ spec → from_str spec s = .error ()
  | [], _, _ => rfl
  | v :: rest, s, h => by
    have hv : s ≠ v := fun e => h (e ▸ List.mem_cons_self v rest)
    have hrest : s ∉ rest := fun e => h (List.mem_cons_of_mem v e)
    rw [from_str, if_neg hv, from_str_error_of_not_mem rest s hrest]

/-- `from_str` implements first-match: if `i` is the first position whose
declared literal is `spec.get i`, then parsing that literal yields variant `i`. -/
theorem from_str_first_match : ∀ (spec : List String) (i : Fin spec.length),
    (∀ m : Fin spec.length, m < i → spec.get m ≠ spec.get i) →
    from_str spec (spec.get i) = .ok i
  | [], i, _ => Fin.elim0 i
  | v :: rest, ⟨0, h0⟩, _ => by
    have hg : (v :: rest).get ⟨0, h0⟩ = v := rfl
    rw [from_str, hg, if_pos rfl]
  | v :: rest, ⟨t + 1, ht⟩, hfirst => by
    have hlt : t < rest.length := Nat.lt_of_succ_lt_succ ht
    have hv : (v :: rest).get ⟨t + 1, ht⟩ ≠ v := by
      intro e
      exact hfirst ⟨0, Nat.succ_pos _⟩ (Nat.succ_pos t) e.symm
    have hrec := from_str_first_match rest ⟨t, hlt⟩ (fun m hm => by
      have := hfirst ⟨m.val + 1, Nat.succ_lt_succ m.isLt⟩ (Nat.succ_lt_succ hm)
      exact this)
    have hg : (v :: rest).get ⟨t + 1, ht⟩ = rest.get ⟨t, hlt⟩ := rfl
    rw [from_str, hg, if_neg (hg ▸ hv), hrec]
    rfl

/-!
The concrete instantiation from the crate's test module and doc example:
`enum_str! { Fruit, (Apple, "🍎"), (Pineapple, "🍍"), (Strawberry, "🍓"), }`.
Each function below is the expansion of the macro at this input.
-/

inductive Fruit
  | Apple
  | Pineapple
  | Strawberry
  deriving DecidableEq

/-- Expansion of `as_str` for `Fruit`. -/
def Fruit.as_str : Fruit → String
  | .Apple => "🍎"
  | .Pineapple => "🍍"
  | .Strawberry => "🍓"

/-- Expansion of `Display::fmt` for `Fruit`: each arm writes its literal to
the formatter (modelled as the accumulated output string). -/
def Fruit.fmt : Fruit → String → String
  | .Apple, f => f ++ "🍎"
  | .Pineapple, f => f ++ "🍍"
  | .Strawberry, f => f ++ "🍓"

/-- `Fruit::to_string` via the blanket `ToString` impl for `Display`. -/
def Fruit.to_string (x : Fruit) : String :=
  Fruit.fmt x ""

/-- Expansion of `from_str` for `Fruit`: string-literal match arms in
declaration order, then the wildcard arm returning `Err(())`. -/
def Fruit.from_str (val : String) : Except Unit Fruit :=
  match val with
  | "🍎" => .ok .Apple
  | "🍍" => .ok .Pineapple
  | "🍓" => .ok .Strawberry
  | _ => .error ()

/-!
Generation-time model for the empty specification list. The macro pattern
`($name:ident, $(($key:ident, $value:expr),)*)` accepts zero pairs, so
rejection can only come from the expanded code failing to parse. The
`from_str` body the template emits is

    match val { $( $value => Ok($name::$key) ),* , _ => Err(()) }

i.e. the generated arms joined by the `),*` separator commas, then one
comma written literally in the template, then the wildcard arm. We model
this token stream and Rust's grammar for match bodies (arms separated by
single commas, optional trailing comma, no leading or doubled comma) to
decide whether the expansion parses.
-/

/-- A token of an emitted match body: a separator comma, or one arm
`pat => rhs`. -/
inductive Tok
  | comma
  | arm (pat rhs : String)
  deriving DecidableEq

/-- The token stream of the `from_str` match body emitted for a pair list:
per-pair arms `$value => Ok($name::$key)` interspersed with the `),*`
separator commas, then the template's literal comma and the wildcard arm. -/
def from_str_match_body (pairs : List (String × String)) : List Tok :=
  ((pairs.map fun p => Tok.arm p.2 ("Ok(" ++ p.1 ++ ")")).intersperse Tok.comma)
    ++ [Tok.comma, Tok.arm "_" "Err(())"]

/-- Rust's grammar for a match body, as a scanner over the token stream:
`expectArm` records whether the next token must begin an arm (true at the
start and after each comma). A comma where an arm is required — in
particular a leading comma — fails to parse; a trailing comma is fine. -/
def armsWellFormed : List Tok → Bool → Bool
  | [], _ => true
  | Tok.comma :: rest, expectArm =>
    if expectArm then false else armsWellFormed rest true
  | Tok.arm _ _ :: rest, expectArm =>
    if expectArm then armsWellFormed rest false else false

/-- The macro invocation compiles only if the emitted `from_str` match body
parses (the other emitted items contain no stray separator and are valid for
any pair count, so this body is the deciding one). -/
def expansion_compiles (pairs : List (String × String)) : Bool :=
  armsWellFormed (from_str_match_body pairs) true

/-- C1: Round-trip — for every pair `(key_i, value_i)` of the specification
list (whose values are unique, the specification invariant of §3 of the
spec), `from_str (as_str key_i) = Ok key_i`. -/
theorem roundtrip_from_str_as_str (spec : List String) (hnd : spec.Nodup)
    (k : Fin spec.length) : from_str spec (as_str spec k) = .ok k := by
  rw [as_str_get]
  refine from_str_first_match spec k (fun m hm heq => ?_)
  exact absurd (hnd.get_inj_iff.mp heq) (ne_of_lt hm)

/-- Witness for C1 at the crate's own Fruit specification, variant 0. -/
theorem roundtrip_from_str_as_str_witness :
    from_str ["🍎", "🍍", "🍓"] (as_str ["🍎", "🍍", "🍓"] ⟨0, by decide⟩) =
      .ok ⟨0, by decide⟩ :=
  roundtrip_from_str_as_str ["🍎", "🍍", "🍓"] (by decide) ⟨0, by decide⟩

/-- C2: Exact-match parse — if the input string equals no declared value
(which covers prefixes, suffixes and case variants of declared values),
`from_str` returns the error. -/
theorem from_str_error_of_no_match (spec : List String) (s : String)
    (h : ∀ i : Fin spec.length, spec.get i ≠ s) : from_str spec s = .error () := by
  refine from_str_error_of_not_mem spec s (fun hmem => ?_)
  obtain ⟨i, hi⟩ := List.mem_iff_get.mp hmem
  exact h i hi

/-- Witness for C2: the identifier text "Strawberry" (a near-miss: the key
name rather than the mapped glyph) fails to parse on the Fruit list. -/
theorem from_str_error_of_no_match_witness :
    from_str ["🍎", "🍍", "🍓"] "Strawberry" = .error () :=
  from_str_error_of_no_match ["🍎", "🍍", "🍓"] "Strawberry" (by decide)

/-- C3: `as_str` is total and exact — the exhaustive match is defined for
every variant of the closed variant set (it is a total Lean function on
`Fin spec.length`, so it cannot panic) and returns exactly the declared
literal of its variant's position. -/
theorem as_str_total_exact (spec : List String) (k : Fin spec.length) :
    as_str spec k = spec.get k :=
  as_str_get spec k

/-- C4: Display equivalence — converting a variant to a string through the
Display implementation yields exactly `as_str` of that variant. -/
theorem display_eq_as_str (spec : List String) (k : Fin spec.length) :
    to_string spec k = as_str spec k := by
  rw [to_string_get, as_str_get]

/-- C5: First-match tie-break on duplicate values — when `i < j` hold the
same value and `key_i` is the first declared key with that value,
`from_str value_i = Ok key_i`, not `Ok key_j`; `as_str` and Display remain
individually correct for every variant. -/
theorem duplicate_first_match (spec : List String) (i j : Fin spec.length)
    (hij : i < j) (hdup : spec.get i = spec.get j)
    (hfirst : ∀ m : Fin spec.length, m < i → spec.get m ≠ spec.get i) :
    from_str spec (spec.get i) = .ok i ∧ from_str spec (spec.get i) ≠ .ok j ∧
      ∀ k : Fin spec.length, as_str spec k = spec.get k ∧ to_string spec k = spec.get k := by
  have hok := from_str_first_match spec i hfirst
  refine ⟨hok, ?_, fun k => ⟨as_str_get spec k, to_string_get spec k⟩⟩
  rw [hok]
  intro he
  injection he with he
  exact absurd he (ne_of_lt hij)

/-- Witness for C5 on the duplicated list `["a", "a"]`: parsing "a" gives
the first declared key, not the second. -/
theorem duplicate_first_match_witness :
    from_str ["a", "a"] "a" = .ok ⟨0, Nat.succ_pos 1⟩ ∧
      from_str ["a", "a"] "a" ≠ .ok ⟨1, Nat.lt_succ_self 1⟩ := by
  have h := duplicate_first_match ["a", "a"] ⟨0, by decide⟩ ⟨1, by decide⟩
    (by decide) rfl (by decide)
  exact ⟨h.1, h.2.1⟩

/-- C6: the parse error carries no payload — `Err` is the unit type, so the
payloads of any two parse failures, on any specifications and inputs, are
equal: failures are indistinguishable. -/
theorem parse_error_no_payload (spec₁ spec₂ : List String) (s₁ s₂ : String)
    (e₁ e₂ : Unit) (h₁ : from_str spec₁ s₁ = .error e₁)
    (h₂ : from_str spec₂ s₂ = .error e₂) : e₁ = e₂ :=
  rfl

/-- Witness for C6: two concrete distinct parse failures carry equal payloads. -/
theorem parse_error_no_payload_witness :
    from_str ["a"] "b" = .error () ∧ from_str [] "x" = .error () ∧ () = () :=
  ⟨rfl, rfl, parse_error_no_payload ["a"] [] "b" "x" () () rfl rfl⟩

/-- C7: the concrete Fruit scenario from the crate's doc example and tests:
`as_str Apple = "🍎"`, `to_string Apple = "🍎"`, `from_str "🍎" = Ok Apple`,
`from_str "🍓" = Ok Strawberry`, and the identifier text "Strawberry" does
not parse. -/
theorem fruit_concrete_scenario :
    Fruit.as_str .Apple = "🍎" ∧ Fruit.to_string .Apple = "🍎" ∧
      Fruit.from_str "🍎" = .ok .Apple ∧ Fruit.from_str "🍓" = .ok .Strawberry ∧
      Fruit.from_str "Strawberry" = .error () :=
  ⟨rfl, rfl, rfl, rfl, rfl⟩

/-- C8: the derived equality holds exactly between equal variants — the
discriminant comparison of `derive(PartialEq)` returns true iff the two
values are the same variant. -/
theorem derivedEq_iff (spec : List String) (a b : Fin spec.length) :
    derivedEq spec a b = true ↔ a = b := by
  simp [derivedEq, Fin.ext_iff]

/-- C9: the empty specification list is rejected at generation time — the
macro pattern accepts zero pairs, but then the emitted `from_str` match body
starts with the template's literal comma and fails to parse, so the
invocation does not compile and no usable type is produced; with at least
one pair the body is well-formed. -/
theorem empty_spec_rejected :
    expansion_compiles [] = false ∧ expansion_compiles [("Apple", "🍎")] = true :=
  ⟨rfl, rfl⟩

/-- C10: reverse round-trip — whenever `from_str s = Ok k`, the winning
arm's pattern was the literal of variant `k` and matched `s` by full-string
equality, so `as_str k = s`; parse never succeeds on a string outside the
declared values. -/
theorem reverse_roundtrip (spec : List String) (s : String) (k : Fin spec.length)
    (h : from_str spec s = .ok k) : as_str spec k = s := by
  rw [as_str_get]
  exact from_str_ok_get spec s k h

/-- Witness for C10: parsing "🍓" on the Fruit list succeeds with variant 2,
and `as_str` maps it back to "🍓". -/
theorem reverse_roundtrip_witness :
    as_str ["🍎", "🍍", "🍓"] ⟨2, by decide⟩ = "🍓" :=
  reverse_roundtrip ["🍎", "🍍", "🍓"] "🍓" ⟨2, by decide⟩ rfl

end EnumStr
